import Mathlib

/-!
Verification of the Open-SAS interpreter core: statement segmentation,
comment stripping, DATA-step parsing and execution, expression and
conditional evaluation, DATALINES ingestion, and PROC dispatch.

Script text is modelled as `List Char`; Python string operations
(`strip`, `split`, `upper`, `find`, slicing, regular expressions used by
the source) are embedded as explicit functions on character lists.
Numeric data values are modelled as rationals; missing values are an
explicit constructor.
-/

namespace OpenSAS

/-- Script text: a list of characters. -/
abbrev Str := List Char

/-- Coerce a Lean string literal into the `Str` model. -/
def ofString (s : String) : Str := s.data

/-- ASCII whitespace, as recognised by Python `str.strip`, `str.split`
and the regex class matching whitespace. -/
def isSpace (c : Char) : Bool :=
  c == ' ' || c == '\t' || c == '\n' || c == '\r' || c == '\x0b' || c == '\x0c'

/-- Python `s.strip()`: remove leading and trailing whitespace. -/
def strip (s : Str) : Str :=
  ((s.dropWhile isSpace).reverse.dropWhile isSpace).reverse

/-- Python `s.upper()` (ASCII). -/
def upper (s : Str) : Str := s.map Char.toUpper

/-- Python `s.lower()` (ASCII). -/
def lower (s : Str) : Str := s.map Char.toLower

/-- Python `s.startswith(p)`. -/
def startsWith (p s : Str) : Bool := p.isPrefixOf s

/-- Python `s.endswith(p)`. -/
def endsWith (p s : Str) : Bool := p.isSuffixOf s

/-- Python `p in s` for a substring test. -/
def containsSub (p : Str) : Str → Bool
  | [] => p.isPrefixOf []
  | c :: rest => p.isPrefixOf (c :: rest) || containsSub p rest

/-- Python `s.split(sep)` for a one-character separator: keeps empty pieces. -/
def splitOnChar (sep : Char) : Str → List Str
  | [] => [[]]
  | c :: rest =>
    match splitOnChar sep rest with
    | [] => [[c]]
    | l :: ls => if c == sep then [] :: l :: ls else (c :: l) :: ls

/-- Python `s.split('\n')`. -/
def splitLines (s : Str) : List Str := splitOnChar '\n' s

/-- Python `'\n'.join(lines)`. -/
def joinLines (lines : List Str) : Str := List.intercalate ['\n'] lines

/-- Python whitespace `s.split()`: split on runs of whitespace, no empty pieces. -/
def splitWs (s : Str) : List Str :=
  (splitOnChar ' ' (s.map (fun c => if isSpace c then ' ' else c))).filter
    (fun p => !p.isEmpty)

/-- Characters matched by the regex class `\w`: letters, digits, underscore
(ASCII). -/
def isWordChar (c : Char) : Bool :=
  ('a' ≤ c && c ≤ 'z') || ('A' ≤ c && c ≤ 'Z') || ('0' ≤ c && c ≤ '9') || c == '_'

/-- ASCII decimal digit test, as used by Python `str.isdigit` on ASCII text. -/
def isDigitChar (c : Char) : Bool := '0' ≤ c && c ≤ '9'

/-- Python `line[:line.find(c)]`: the prefix of `s` before the first
occurrence of `c`, or `none` when `c` does not occur (`find` returns -1). -/
def beforeChar (c : Char) : Str → Option Str
  | [] => none
  | d :: rest => if d == c then some [] else (beforeChar c rest).map (d :: ·)

/-- Scan for the first `*/` and return the remainder after it, mirroring the
non-greedy regex `/\*.*?\*/` finding the nearest close. -/
def findBlockClose : Str → Option Str
  | [] => none
  | [_] => none
  | c :: d :: rest =>
    if c == '*' && d == '/' then some rest else findBlockClose (d :: rest)

theorem findBlockClose_length :
    ∀ {l r : Str}, findBlockClose l = some r → r.length + 2 ≤ l.length := by
  intro l
  induction l with
  | nil => intro r h; simp [findBlockClose] at h
  | cons c rest ih =>
    intro r h
    cases rest with
    | nil => simp [findBlockClose] at h
    | cons d rest2 =>
      rw [findBlockClose] at h
      by_cases hc : (c == '*' && d == '/') = true
      · rw [if_pos hc] at h
        injection h with h
        subst h
        simp
      · rw [if_neg hc] at h
        have := ih h
        simp only [List.length_cons] at this ⊢
        omega

/-- Fuel-indexed scanner for Python `re.sub` with pattern `/\*.*?\*/` and
DOTALL: remove each block comment from a `/*` to the nearest following `*/`;
an unclosed `/*` has no match and is left in place, together with everything
after it.  Each step consumes at least one character, so any fuel of at
least the input length gives the same result (`removeBlockCommentsFuel_congr`);
structural recursion on the fuel keeps the function kernel-computable. -/
def removeBlockCommentsFuel : Nat → Str → Str
  | 0, s => s
  | _ + 1, [] => []
  | fuel + 1, c :: rest =>
    if c == '/' && (rest.head? == some '*') then
      match findBlockClose rest.tail with
      | some rest2 => removeBlockCommentsFuel fuel rest2
      | none => c :: rest
    else c :: removeBlockCommentsFuel fuel rest

theorem removeBlockCommentsFuel_congr :
    ∀ (n m : Nat) (s : Str), s.length ≤ n → s.length ≤ m →
      removeBlockCommentsFuel n s = removeBlockCommentsFuel m s := by
  intro n
  induction n with
  | zero =>
    intro m s hn _
    have : s = [] := List.length_eq_zero.mp (Nat.le_zero.mp hn)
    subst this
    cases m <;> rfl
  | succ n ih =>
    intro m s hn hm
    cases s with
    | nil => cases m <;> rfl
    | cons c rest =>
      have hm1 : ∃ m2, m = m2 + 1 := by
        cases m
        · simp at hm
        · exact ⟨_, rfl⟩
      obtain ⟨m2, rfl⟩ := hm1
      simp only [List.length_cons] at hn hm
      rw [removeBlockCommentsFuel, removeBlockCommentsFuel]
      by_cases hc : (c == '/' && (rest.head? == some '*')) = true
      · rw [if_pos hc, if_pos hc]
        cases hfc : findBlockClose rest.tail with
        | none => rfl
        | some rest2 =>
          have h2 := findBlockClose_length hfc
          have h3 : rest.tail.length ≤ rest.length := by cases rest <;> simp
          exact ih m2 rest2 (by omega) (by omega)
      · rw [if_neg hc, if_neg hc]
        rw [ih m2 rest (by omega) (by omega)]

/-- Embedding of the block-comment removal in `SASInterpreter._clean_code`:
the fuel-indexed scanner run with sufficient fuel. -/
def removeBlockComments (s : Str) : Str := removeBlockCommentsFuel s.length s

/-- Line-comment removal of `_clean_code`: find the first `*` in the line
(Python `line.find('*')`); if the text before it contains an even number of
single quotes and an even number of double quotes, truncate the line there,
otherwise keep the line unchanged. -/
def stripLineComment (line : Str) : Str :=
  match beforeChar '*' line with
  | none => line
  | some before =>
    if before.count '\'' % 2 == 0 && before.count '"' % 2 == 0 then before
    else line

/-- Embedding of `SASInterpreter._clean_code`: strip `/* ... */` block
comments, then apply the per-line `*`-comment rule and rejoin with newlines. -/
def cleanCode (code : Str) : Str :=
  joinLines ((splitLines (removeBlockComments code)).map stripLineComment)

/-- Loop state of `SASInterpreter._split_statements`: accumulated statements,
the current statement text, and the `in_datalines` / `in_data_step` flags. -/
structure SplitState where
  stmts : List Str
  cur : Str
  inDatalines : Bool
  inDataStep : Bool
deriving DecidableEq, Repr

/-- One iteration of the `for line in lines` loop of
`SASInterpreter._split_statements`, translated branch by branch. -/
def splitStep (st : SplitState) (rawLine : Str) : SplitState :=
  let line := strip rawLine
  if line.isEmpty then
    if st.cur.isEmpty then st else { st with cur := st.cur ++ ['\n'] }
  else if startsWith (ofString "DATA ") (upper line) then
    { st with cur := line, inDataStep := true }
  else if startsWith (ofString "PROC ") (upper line) then
    let st1 :=
      if st.inDataStep && !(strip st.cur).isEmpty then
        { st with stmts := st.stmts ++ [strip st.cur], cur := [],
                  inDataStep := false, inDatalines := false }
      else st
    if endsWith [';'] line then { st1 with cur := line.dropLast }
    else { st1 with cur := line }
  else if upper line == ofString "RUN;" then
    if (strip st.cur).isEmpty then st
    else
      { st with stmts := st.stmts ++ [strip (st.cur ++ '\n' :: line)], cur := [],
                inDataStep := false, inDatalines := false }
  else if upper line == ofString "DATALINES;" || upper line == ofString "CARDS;" then
    { st with inDatalines := true, cur := st.cur ++ '\n' :: line }
  else if line == [';'] && st.inDatalines then
    { st with cur := st.cur ++ '\n' :: line, inDatalines := false }
  else if st.inDatalines then
    { st with cur := st.cur ++ '\n' :: line }
  else if st.inDataStep then
    { st with cur := st.cur ++ '\n' :: line }
  else if endsWith [';'] line then
    { st with stmts := st.stmts ++ [strip (st.cur ++ ' ' :: line)], cur := [] }
  else if [ofString "TABLES", ofString "VAR", ofString "BY", ofString "CLASS",
      ofString "MODEL", ofString "OUTPUT", ofString "WHERE"].any
        (fun k => startsWith k (upper line)) then
    if (strip st.cur).isEmpty then { st with cur := line }
    else { st with stmts := st.stmts ++ [strip st.cur], cur := line }
  else { st with cur := st.cur ++ ' ' :: line }

/-- Embedding of `SASInterpreter._split_statements`: fold the per-line step
over the lines of the code and flush a non-empty trailing statement. -/
def splitStatements (code : Str) : List Str :=
  let st := (splitLines code).foldl splitStep ⟨[], [], false, false⟩
  if (strip st.cur).isEmpty then st.stmts else st.stmts ++ [strip st.cur]

example :
    splitStatements (cleanCode (ofString "proc print;")) = [ofString "proc print"] := by
  decide

example :
    splitStatements (cleanCode (ofString "proc print;\nvar x;\nwhere y;\nrun;")) =
      [ofString "proc print var x;", ofString "where y;"] := by
  decide

example :
    stripLineComment (ofString "msg='*'; z=a*b;") = ofString "msg='*'; z=a*b;" := by
  decide

/-- Cell value of a table.  Numerics are rationals, modelling the Python
floats produced from the decimal literals the interpreter handles;
`missing` models `None`/NaN cells. -/
inductive Value where
  | num (q : Rat)
  | str (s : Str)
  | missing
deriving DecidableEq, Repr

/-- Table: a pandas DataFrame modelled as ordered columns, each a name
paired with its cells in row order. -/
structure Table where
  cols : List (Str × List Value)
deriving DecidableEq, Repr

/-- Association-list lookup with first-match semantics, as for the unique
keys of a Python dict. -/
def alookup {α : Type} : List (Str × α) → Str → Option α
  | [], _ => none
  | (n, v) :: rest, name => if n = name then some v else alookup rest name

/-- Python dict assignment semantics on an association list: replace the
binding in place when the key exists, otherwise append it at the end. -/
def adictSet {α : Type} : List (Str × α) → Str → α → List (Str × α)
  | [], name, v => [(name, v)]
  | (n, w) :: rest, name, v =>
    if n = name then (n, v) :: rest else (n, w) :: adictSet rest name v

/-- Column lookup, `name in data.columns` / `data[name]`. -/
def Table.getCol (t : Table) (name : Str) : Option (List Value) :=
  alookup t.cols name

/-- Column names in order, `data.columns`. -/
def Table.colNames (t : Table) : List Str := t.cols.map Prod.fst

/-- Row count, `len(data)`; an empty DataFrame has zero rows. -/
def Table.rowCount (t : Table) : Nat :=
  match t.cols with
  | [] => 0
  | (_, v) :: _ => v.length

/-- Column assignment `data[name] = series`: overwrite in place when the
column exists, else append it as the last column. -/
def Table.setCol (t : Table) (name : Str) (v : List Value) : Table :=
  ⟨adictSet t.cols name v⟩

/-- Parse an ASCII digit string as a natural number. -/
def digitsToNat (s : Str) : Nat :=
  s.foldl (fun acc c => acc * 10 + (c.toNat - 48)) 0

/-- Model of Python `float(token)` restricted to the decimal forms the
interpreter feeds it: optional sign, then digits with at most one decimal
point and at least one digit overall; `none` models the `ValueError` raise
on any other token. -/
def pyFloat (s : Str) : Option Rat :=
  let signBody : Bool × Str :=
    match s with
    | '-' :: rest => (true, rest)
    | '+' :: rest => (false, rest)
    | _ => (false, s)
  let mk : Nat → Nat → Rat := fun n d =>
    if signBody.1 then mkRat (-(n : Int)) d else mkRat (n : Int) d
  match splitOnChar '.' signBody.2 with
  | [intPart] =>
    if !intPart.isEmpty && intPart.all isDigitChar then
      some (mk (digitsToNat intPart) 1)
    else none
  | [intPart, fracPart] =>
    if (intPart.isEmpty && fracPart.isEmpty) then none
    else if intPart.all isDigitChar && fracPart.all isDigitChar then
      some (mk (digitsToNat intPart * 10 ^ fracPart.length + digitsToNat fracPart)
        (10 ^ fracPart.length))
    else none
  | _ => none

/-- The Python test `s.replace('.', '').replace('-', '').isdigit()` used by
the evaluator to sniff numeric literals (true on some non-numbers such as
`1.2.3`, on which `float` then raises). -/
def isdigitCheck (s : Str) : Bool :=
  let r := s.filter (fun c => c != '.' && c != '-')
  !r.isEmpty && r.all isDigitChar

/-- Python `s.startswith(q) and s.endswith(q)` for a one-character quote;
a single quote character passes on its own, as in the source. -/
def isQuotedBy (q : Char) (s : Str) : Bool :=
  startsWith [q] s && endsWith [q] s

/-- Python `s[1:-1]`. -/
def unquote (s : Str) : Str := (s.drop 1).dropLast

/-- Lexicographic order on text, for predicate comparisons. -/
def strLt : Str → Str → Bool
  | [], [] => false
  | [], _ :: _ => true
  | _ :: _, [] => false
  | a :: as, b :: bs => if a < b then true else if b < a then false else strLt as bs

/-- Modelled from the spec: value equality for predicate comparisons;
missing compares unequal to everything, matching NaN comparison semantics. -/
def valueEq : Value → Value → Bool
  | .num a, .num b => a == b
  | .str a, .str b => a == b
  | _, _ => false

/-- Modelled from the spec: strict order for predicate comparisons; numbers
compare numerically, text lexicographically, everything else false. -/
def valueLt : Value → Value → Bool
  | .num a, .num b => a < b
  | .str a, .str b => strLt a b
  | _, _ => false

/-- Comparison operators of the predicate grammar (§4.2). -/
def compareOp (op : Str) : Option (Value → Value → Bool) :=
  if op = ofString "=" then some valueEq
  else if op = ofString "^=" then some (fun a b => !valueEq a b)
  else if op = ofString ">" then some (fun a b => valueLt b a)
  else if op = ofString "<" then some valueLt
  else if op = ofString ">=" then some (fun a b => valueLt b a || valueEq a b)
  else if op = ofString "<=" then some (fun a b => valueLt a b || valueEq a b)
  else none

/-- Modelled from the spec: one predicate operand (§4.2): a token naming an
existing column resolves to that row's cell; otherwise a quoted literal is
text, a numeric token is a number, and any other token is literal text. -/
def resolveOperand (t : Table) (i : Nat) (tok : Str) : Value :=
  match t.getCol tok with
  | some col => (col.get? i).getD .missing
  | none =>
    if isQuotedBy '\'' tok || isQuotedBy '"' tok then .str (unquote tok)
    else
      match pyFloat tok with
      | some q => .num q
      | none => .str tok

/-- Split a whitespace-token list into comparison groups separated by
(case-insensitive) AND/OR tokens; the boolean list records each separator
(true = AND). -/
def boolGroupsAux : List Str → List Str → List (List Str) × List Bool
  | [], acc => ([acc.reverse], [])
  | tok :: rest, acc =>
    if lower tok == ofString "and" then
      let r := boolGroupsAux rest []
      (acc.reverse :: r.1, true :: r.2)
    else if lower tok == ofString "or" then
      let r := boolGroupsAux rest []
      (acc.reverse :: r.1, false :: r.2)
    else boolGroupsAux rest (tok :: acc)

/-- Evaluate one comparison group (optionally prefixed by NOT) on row `i`. -/
def evalGroup (t : Table) (i : Nat) (g : List Str) : Option Bool :=
  match g with
  | [a, op, b] =>
    (compareOp op).map (fun f => f (resolveOperand t i a) (resolveOperand t i b))
  | [nt, a, op, b] =>
    if lower nt == ofString "not" then
      (compareOp op).map (fun f => !f (resolveOperand t i a) (resolveOperand t i b))
    else none
  | _ => none

/-- Left-to-right AND/OR combination of the group results. -/
def combineBool (acc : Bool) : List Bool → List Bool → Bool
  | [], _ => acc
  | _ :: _, [] => acc
  | op :: ops, b :: bs => combineBool (if op then acc && b else acc || b) ops bs

/-- Modelled from the spec: `ExpressionParser.parse_where_condition` is not
under `src/` (only its callers are).  Following §4.2's predicate grammar it
tokenizes the condition, evaluates comparisons combined left-to-right with
AND/OR and negated by NOT, and yields a boolean row mask; an unparsable
predicate yields an all-false mask. -/
def parse_where_condition (cond : Str) (t : Table) : List Bool :=
  let toks := splitWs cond
  (List.range t.rowCount).map (fun i =>
    let gs := boolGroupsAux toks []
    match gs.1.mapM (evalGroup t i) with
    | some (b :: bs) => combineBool b gs.2 bs
    | _ => false)

example :
    parse_where_condition (ofString "x > 10")
      ⟨[(ofString "x", [.num 5, .num 15, .num 20])]⟩ = [false, true, true] := by
  decide

/-- Binary operators of the §4.2 expression grammar. -/
inductive AOp where
  | add | sub | mul | div | pow
deriving DecidableEq, Repr

/-- Tokens of the arithmetic expression lexer. -/
inductive ATok where
  | num (q : Rat)
  | lit (s : Str)
  | ident (s : Str)
  | op (o : AOp)
  | lparen
  | rparen
deriving DecidableEq, Repr

/-- Abstract syntax of §4.2 arithmetic expressions. -/
inductive AExpr where
  | num (q : Rat)
  | litStr (s : Str)
  | col (name : Str)
  | bin (o : AOp) (a b : AExpr)
deriving DecidableEq, Repr

/-- Split at the first occurrence of a character (used for closing quotes). -/
def spanUntilChar (q : Char) : Str → Option (Str × Str)
  | [] => none
  | c :: rest =>
    if c == q then some ([], rest)
    else (spanUntilChar q rest).map (fun p => (c :: p.1, p.2))

/-- Modelled from the spec: lexer for the §4.2 expression grammar.  The
source's `_evaluate_arithmetic` substitutes column references into a
host-language `eval` call, which has no direct shallow embedding; §9
directs replacing it by this explicit grammar.  Fuel bounds the scan; the
input length plus one is always enough since each step consumes a
character. -/
def lexArith : Nat → Str → Option (List ATok)
  | 0, _ => none
  | _ + 1, [] => some []
  | fuel + 1, c :: rest =>
    if isSpace c then lexArith fuel rest
    else if isDigitChar c || c == '.' then
      let numStr := (c :: rest).takeWhile (fun d => isDigitChar d || d == '.')
      match pyFloat numStr with
      | some q => (lexArith fuel ((c :: rest).drop numStr.length)).map (.num q :: ·)
      | none => none
    else if c == '\'' || c == '"' then
      match spanUntilChar c rest with
      | some p => (lexArith fuel p.2).map (.lit p.1 :: ·)
      | none => none
    else if isWordChar c then
      let w := (c :: rest).takeWhile isWordChar
      (lexArith fuel ((c :: rest).drop w.length)).map (.ident w :: ·)
    else if c == '+' then (lexArith fuel rest).map (.op .add :: ·)
    else if c == '-' then (lexArith fuel rest).map (.op .sub :: ·)
    else if c == '/' then (lexArith fuel rest).map (.op .div :: ·)
    else if c == '*' then
      match rest with
      | '*' :: rest2 => (lexArith fuel rest2).map (.op .pow :: ·)
      | _ => (lexArith fuel rest).map (.op .mul :: ·)
    else if c == '(' then (lexArith fuel rest).map (.lparen :: ·)
    else if c == ')' then (lexArith fuel rest).map (.rparen :: ·)
    else none

/-- Parsing mode for the single-function recursive-descent parser:
`expr`/`term`/`factor` of the §4.2 grammar, plus the left-associative
operator chains carrying their accumulated left operand. -/
inductive PMode where
  | expr | term | factor
  | exprChain (acc : AExpr)
  | termChain (acc : AExpr)

/-- Modelled from the spec: recursive-descent parser for
`expr := term (('+'|'-') term)*`, `term := factor (('*'|'/'|'**') factor)*`,
`factor := NUMBER | STRING | IDENTIFIER | '(' expr ')'`; structural fuel
recursion keeps it total. -/
def parseArith : Nat → PMode → List ATok → Option (AExpr × List ATok)
  | 0, _, _ => none
  | fuel + 1, .factor, toks =>
    match toks with
    | .num q :: rest => some (.num q, rest)
    | .lit s :: rest => some (.litStr s, rest)
    | .ident s :: rest => some (.col s, rest)
    | .lparen :: rest =>
      match parseArith fuel .expr rest with
      | some (e, .rparen :: r) => some (e, r)
      | _ => none
    | _ => none
  | fuel + 1, .term, toks =>
    match parseArith fuel .factor toks with
    | some (f, rest) => parseArith fuel (.termChain f) rest
    | none => none
  | fuel + 1, .termChain acc, toks =>
    match toks with
    | .op o :: rest =>
      if o = .mul ∨ o = .div ∨ o = .pow then
        match parseArith fuel .factor rest with
        | some (f, r) => parseArith fuel (.termChain (.bin o acc f)) r
        | none => none
      else some (acc, toks)
    | _ => some (acc, toks)
  | fuel + 1, .expr, toks =>
    match parseArith fuel .term toks with
    | some (t, rest) => parseArith fuel (.exprChain t) rest
    | none => none
  | fuel + 1, .exprChain acc, toks =>
    match toks with
    | .op o :: rest =>
      if o = .add ∨ o = .sub then
        match parseArith fuel .term rest with
        | some (t, r) => parseArith fuel (.exprChain (.bin o acc t)) r
        | none => none
      else some (acc, toks)
    | _ => some (acc, toks)

/-- Row-wise evaluation of an arithmetic AST.  Text operands raise (zeros
fallback at the caller), missing operands propagate as missing (NaN
arithmetic), division by zero and non-integral exponents are modelled as
raises. -/
def evalAExprRow (t : Table) (i : Nat) : AExpr → Except Unit Value
  | .num q => .ok (.num q)
  | .litStr s => .ok (.str s)
  | .col n =>
    match t.getCol n with
    | some col => .ok ((col.get? i).getD .missing)
    | none => .ok (.str n)
  | .bin o a b => do
    let va ← evalAExprRow t i a
    let vb ← evalAExprRow t i b
    match va, vb with
    | .str _, _ => .error ()
    | _, .str _ => .error ()
    | .missing, _ => .ok .missing
    | _, .missing => .ok .missing
    | .num x, .num y =>
      match o with
      | .add => .ok (.num (x + y))
      | .sub => .ok (.num (x - y))
      | .mul => .ok (.num (x * y))
      | .div => if y = 0 then .error () else .ok (.num (x / y))
      | .pow =>
        if y.den = 1 then
          if 0 ≤ y.num then .ok (.num (x ^ y.num.toNat))
          else if x = 0 then .error ()
          else .ok (.num ((x ^ y.num.natAbs)⁻¹))
        else .error ()

/-- Modelled from the spec: `_evaluate_arithmetic` with the source's
fallback contract: any parse or evaluation failure yields an all-zero
column (`except: return pd.Series([0]*len(data))`). -/
def evaluate_arithmetic (e : Str) (t : Table) : List Value :=
  let zeros := List.replicate t.rowCount (Value.num 0)
  match lexArith (e.length + 1) e with
  | none => zeros
  | some toks =>
    match parseArith (4 * toks.length + 8) .expr toks with
    | some (ast, []) =>
      match (List.range t.rowCount).mapM (fun i => (evalAExprRow t i ast).toOption) with
      | some vs => vs
      | none => zeros
    | _ => zeros

/-- The fixed function-registry names of `ExpressionEvaluator.__init__`. -/
def functionNames : List Str :=
  [ofString "sum", ofString "mean", ofString "min", ofString "max", ofString "abs",
   ofString "sqrt", ofString "round", ofString "int", ofString "length",
   ofString "substr", ofString "index", ofString "compress", ofString "trim",
   ofString "upcase", ofString "lowcase", ofString "ifc", ofString "ifn"]

def anyStr (vs : List Value) : Bool :=
  vs.any fun v => match v with | .str _ => true | _ => false

def anyMissing (vs : List Value) : Bool :=
  vs.any fun v => match v with | .missing => true | _ => false

def allNum (vs : List Value) : Bool :=
  vs.all fun v => match v with | .num _ => true | _ => false

def getNums (vs : List Value) : List Rat :=
  vs.filterMap fun v => match v with | .num q => some q | _ => none

def getStrs (vs : List Value) : List Str :=
  vs.filterMap fun v => match v with | .str s => some s | _ => none

/-- Exact rational square root, when one exists. -/
def ratSqrt (q : Rat) : Option Rat :=
  let sn := Nat.sqrt q.num.natAbs
  let sd := Nat.sqrt q.den
  if sn * sn == q.num.natAbs && sd * sd == q.den then some (mkRat sn sd) else none

/-- Python `round` on a float: round half to even. -/
def ratRoundHalfEven (q : Rat) : Int :=
  let f := q.floor
  let frac := q - (f : Rat)
  if frac < 1/2 then f
  else if 1/2 < frac then f + 1
  else if f % 2 = 0 then f else f + 1

/-- Python `int` on a float: truncation toward zero. -/
def ratTrunc (q : Rat) : Int :=
  if 0 ≤ q then q.floor else -((-q).floor)

/-- One-based substring search: `string.find(sub)` as an option. -/
def strFind (sub : Str) : Str → Option Nat
  | [] => if sub.isEmpty then some 0 else none
  | c :: rest =>
    if sub.isPrefixOf (c :: rest) then some 0 else (strFind sub rest).map (· + 1)

/-- Application of one registry function to resolved scalar values,
modelling the host-language behavior on the value kinds the evaluator
produces; `none` models a raised exception, which the caller turns into a
zero-column fallback.  Modelling notes: `substr` always raises in the
source because numeric arguments arrive as floats and the host rejects
float string indices, so it is `none`; arithmetic is exact rational, so
`sqrt` without a rational root is modelled as `none`; missing propagates
as NaN where the host would produce NaN. -/
def applySASFunc (name : Str) (vs : List Value) : Option Value :=
  if name = ofString "sum" then
    if anyStr vs then none
    else if anyMissing vs then some .missing
    else some (.num ((getNums vs).foldl (· + ·) 0))
  else if name = ofString "mean" then
    if vs.isEmpty || anyStr vs then none
    else if anyMissing vs then some .missing
    else some (.num ((getNums vs).foldl (· + ·) 0 / (vs.length : Rat)))
  else if name = ofString "min" || name = ofString "max" then
    let isMin := name = ofString "min"
    if vs.isEmpty then none
    else if anyMissing vs then some .missing
    else if allNum vs then
      let ns := getNums vs
      some (.num (ns.foldl
        (fun a b => if (if isMin then b < a else a < b) then b else a) (ns.headD 0)))
    else if vs.all (fun v => match v with | .str _ => true | _ => false) then
      let ss := getStrs vs
      some (.str (ss.foldl
        (fun a b => if (if isMin then strLt b a else strLt a b) then b else a) (ss.headD [])))
    else none
  else if name = ofString "abs" then
    match vs with
    | [.num q] => some (.num |q|)
    | [.missing] => some .missing
    | _ => none
  else if name = ofString "sqrt" then
    match vs with
    | [.num q] => if q < 0 then some .missing else (ratSqrt q).map .num
    | [.missing] => some .missing
    | _ => none
  else if name = ofString "round" then
    match vs with
    | [.num q] => some (.num (ratRoundHalfEven q : Int))
    | _ => none
  else if name = ofString "int" then
    match vs with
    | [.num q] => some (.num (ratTrunc q : Int))
    | _ => none
  else if name = ofString "length" then
    match vs with
    | [.str s] => some (.num (s.length : Nat))
    | _ => none
  else if name = ofString "substr" then none
  else if name = ofString "index" then
    match vs with
    | [.str s, .str sub] =>
      match strFind sub s with
      | some i => some (.num ((i : Nat) + 1))
      | none => some (.num 0)
    | _ => none
  else if name = ofString "compress" then
    match vs with
    | [.str s] => some (.str (s.filter (· != ' ')))
    | [.str s, .str chars] => some (.str (s.filter (fun c => !(chars.contains c))))
    | _ => none
  else if name = ofString "trim" then
    match vs with
    | [.str s] => some (.str (strip s))
    | _ => none
  else if name = ofString "upcase" then
    match vs with
    | [.str s] => some (.str (upper s))
    | _ => none
  else if name = ofString "lowcase" then
    match vs with
    | [.str s] => some (.str (lower s))
    | _ => none
  else if name = ofString "ifc" || name = ofString "ifn" then
    match vs with
    | [cond, a, b] =>
      let truthy : Bool := match cond with
        | .num q => q != 0
        | .str s => !s.isEmpty
        | .missing => true
      some (if truthy then a else b)
    | _ => none
  else none

/-- A resolved function argument: a whole column, or a scalar value. -/
inductive FArg where
  | colA (c : List Value)
  | scalarA (v : Value)

/-- Argument resolution of `_evaluate_function` (source lines 196–206):
column name, numeric-looking token (a `float` failure raises, caught by the
surrounding try, hence `none`), quoted literal, or raw text. -/
def resolveFArg (t : Table) (arg : Str) : Option FArg :=
  match t.getCol arg with
  | some col => some (.colA col)
  | none =>
    if isdigitCheck arg then (pyFloat arg).map (fun q => .scalarA (.num q))
    else if isQuotedBy '"' arg || isQuotedBy '\'' arg then
      some (.scalarA (.str (unquote arg)))
    else some (.scalarA (.str arg))

/-- The regex `(\w+)\s*\(([^)]+)\)` matched at the start of the expression. -/
def parseFuncCall (s : Str) : Option (Str × Str) :=
  let name := s.takeWhile isWordChar
  if name.isEmpty then none
  else
    match (s.drop name.length).dropWhile isSpace with
    | '(' :: rest2 =>
      let args := rest2.takeWhile (· != ')')
      if args.isEmpty then none
      else
        match rest2.drop args.length with
        | ')' :: _ => some (name, args)
        | _ => none
    | _ => none

/-- Embedding of `ExpressionEvaluator._evaluate_function`: a zero column
for a malformed call or an unknown name; arguments are resolved, a single
column argument is applied elementwise, otherwise the scalars are applied
once and broadcast; any raised error falls back to a zero column.  A column
argument in the scalar path (multi-argument call on columns) is modelled as
a raise. -/
def evaluate_function (e : Str) (t : Table) : List Value :=
  match parseFuncCall e with
  | none => List.replicate t.rowCount (Value.num 0)
  | some nargs =>
    if !(functionNames.contains (lower nargs.1)) then
      List.replicate t.rowCount (Value.num 0)
    else
      match ((splitOnChar ',' nargs.2).map strip).mapM (resolveFArg t) with
      | none => List.replicate t.rowCount (Value.num 0)
      | some fargs =>
        match fargs with
        | [.colA c] =>
          match c.mapM (fun v => applySASFunc (lower nargs.1) [v]) with
          | some vs => vs
          | none => List.replicate t.rowCount (Value.num 0)
        | _ =>
          match fargs.mapM (fun a => match a with
              | .scalarA v => some v
              | .colA _ => none) with
          | none => List.replicate t.rowCount (Value.num 0)
          | some vals =>
            match applySASFunc (lower nargs.1) vals with
            | some v => List.replicate t.rowCount v
            | none => List.replicate t.rowCount (Value.num 0)

/-- The source test `any(op in expression for op in ['+','-','*','/','**'])`. -/
def hasArithOp (e : Str) : Bool :=
  e.contains '+' || e.contains '-' || e.contains '*' || e.contains '/'

/-- Embedding of `ExpressionEvaluator._evaluate_expression`.  The only
failure that escapes is a token that passes the digit sniff but is rejected
by `float` (such as `1.2.3`), mirroring the uncaught `ValueError`. -/
def evaluate_expression (e : Str) (t : Table) : Except Unit (List Value) :=
  match t.getCol (strip e) with
  | some col => .ok col
  | none =>
    if isdigitCheck e then
      match pyFloat e with
      | some q => .ok (List.replicate t.rowCount (.num q))
      | none => .error ()
    else if isQuotedBy '"' e || isQuotedBy '\'' e then
      .ok (List.replicate t.rowCount (.str (unquote e)))
    else if hasArithOp e then .ok (evaluate_arithmetic e t)
    else if e.contains '(' && e.contains ')' then .ok (evaluate_function e t)
    else .ok (List.replicate t.rowCount (.str e))

/-- The regex `(\w+)\s*=\s*(.+)` matched at the start: target name, then
the raw right-hand side (with leading whitespace removed). -/
def parseAssign (s : Str) : Option (Str × Str) :=
  let name := s.takeWhile isWordChar
  if name.isEmpty then none
  else
    match (s.drop name.length).dropWhile isSpace with
    | '=' :: rest2 =>
      let value := rest2.dropWhile isSpace
      if value.isEmpty then none else some (name, value)
    | _ => none

/-- Embedding of `ExpressionEvaluator.evaluate_assignment`: parse
`var = expression`, evaluate, and bind the column; a parse failure or a
raised evaluation error leaves the table unchanged. -/
def evaluate_assignment (assignment : Str) (t : Table) : Table :=
  match parseAssign (strip assignment) with
  | none => t
  | some ve =>
    match evaluate_expression (strip ve.2) t with
    | .ok col => t.setCol ve.1 col
    | .error _ => t

/-- Match `\s+then\s+` (case-insensitive `then`) at the head, returning the
text after it. -/
def matchThen (s : Str) : Option Str :=
  let s1 := s.dropWhile isSpace
  if s1.length == s.length then none
  else if lower (s1.take 4) == ofString "then" then
    let s2 := s1.drop 4
    let s3 := s2.dropWhile isSpace
    if s3.length == s2.length then none
    else if s3.isEmpty then none
    else some s3
  else none

/-- Scan for the first position where `\s+then\s+` matches, accumulating
the (non-greedy) condition text before it. -/
def splitAtThen : Nat → Str → Str → Option (Str × Str)
  | 0, _, _ => none
  | _ + 1, _, [] => none
  | fuel + 1, condAcc, c :: cs =>
    if isSpace c then
      match matchThen (c :: cs) with
      | some after => if condAcc.isEmpty then none else some (condAcc.reverse, after)
      | none => splitAtThen fuel (c :: condAcc) cs
    else splitAtThen fuel (c :: condAcc) cs

/-- The regex `if\s+(.+?)\s+then\s+(.+)` with IGNORECASE used by
`evaluate_if_then_else`, modelled for single-line statements. -/
def parseIfThen (s : Str) : Option (Str × Str) :=
  if lower (s.take 2) == ofString "if" then
    let rest := s.drop 2
    let rest2 := rest.dropWhile isSpace
    if rest2.length == rest.length then none
    else splitAtThen (rest2.length + 1) [] rest2
  else none

/-- Masked scalar write `data.loc[mask, var] = value`. -/
def maskedWriteConst (t : Table) (var : Str) (mask : List Bool) (v : Value) : Table :=
  match t.getCol var with
  | none => t
  | some col => t.setCol var (List.zipWith (fun m old => if m then v else old) mask col)

/-- Three-way zip, for the masked series write. -/
def zip3With {α β γ δ : Type} (f : α → β → γ → δ) : List α → List β → List γ → List δ
  | a :: as, b :: bs, c :: cs => f a b c :: zip3With f as bs cs
  | _, _, _ => []

/-- Masked series write `data.loc[mask, var] = result[mask]`. -/
def maskedWriteVals (t : Table) (var : Str) (mask : List Bool) (vals : List Value) : Table :=
  match t.getCol var with
  | none => t
  | some col => t.setCol var (zip3With (fun m old new => if m then new else old) mask col vals)

/-- Column creation of `evaluate_if_then_else` (source lines 101–102,
`data[var_name] = None`): when the target column is absent it is appended
with every row missing; the predicate mask is computed against the original
table just before this, as in the source. -/
def condTarget (var : Str) (t : Table) : Table :=
  if (t.getCol var).isSome then t
  else t.setCol var (List.replicate t.rowCount Value.missing)

/-- Core of `evaluate_if_then_else` (source lines 97–121), given the parsed
condition, target variable and raw value text: build the predicate mask,
create the target column as all-missing when absent, then write into
exactly the masked rows - a quoted literal or numeric literal as a scalar,
an expression result through the mask, and on a raised error the raw text
itself. -/
def applyCondAssign (condition var value : Str) (t : Table) : Table :=
  if isQuotedBy '"' value then
    maskedWriteConst (condTarget var t) var (parse_where_condition condition t)
      (.str (unquote value))
  else if isQuotedBy '\'' value then
    maskedWriteConst (condTarget var t) var (parse_where_condition condition t)
      (.str (unquote value))
  else if isdigitCheck value then
    match pyFloat value with
    | some q =>
      maskedWriteConst (condTarget var t) var (parse_where_condition condition t) (.num q)
    | none =>
      maskedWriteConst (condTarget var t) var (parse_where_condition condition t)
        (.str value)
  else
    match evaluate_expression value (condTarget var t) with
    | .ok colv =>
      maskedWriteVals (condTarget var t) var (parse_where_condition condition t) colv
    | .error _ =>
      maskedWriteConst (condTarget var t) var (parse_where_condition condition t)
        (.str value)

/-- Embedding of `ExpressionEvaluator.evaluate_if_then_else`: when the
statement contains `if` and `then` and both regexes match, run the masked
conditional assignment; otherwise return the table unchanged. -/
def evaluate_if_then_else (stmt : Str) (t : Table) : Table :=
  if containsSub (ofString "if") (lower stmt) && containsSub (ofString "then") (lower stmt) then
    match parseIfThen stmt with
    | none => t
    | some ca =>
      match parseAssign (strip ca.2) with
      | none => t
      | some vv => applyCondAssign ca.1 vv.1 (strip vv.2) t
  else t

example :
    evaluate_if_then_else (ofString "if x > 10 then y = 'Hi'")
        ⟨[(ofString "x", [.num 5, .num 15, .num 20])]⟩ =
      ⟨[(ofString "x", [.num 5, .num 15, .num 20]),
        (ofString "y", [.missing, .str (ofString "Hi"), .str (ofString "Hi")])]⟩ := by
  decide

/-- Parsed view of a DATA step (`DataStepInfo` in the source).  The
`statements` field of the source dataclass is always left empty there and
is omitted; the rename map is an insertion-ordered dict. -/
structure DataStepInfo where
  output_dataset : Option Str
  set_datasets : List Str
  where_conditions : List Str
  variable_assignments : List Str
  drop_vars : List Str
  keep_vars : List Str
  rename_vars : List (Str × Str)
  by_vars : List Str
deriving DecidableEq, Repr

def startsWithAny (ks : List Str) (s : Str) : Bool := ks.any (fun k => startsWith k s)

/-- The keyword tuple `('DROP', 'KEEP', 'RENAME', 'BY')` of the assignment
sniff (no trailing spaces, as in the source). -/
def dkrbKeywords : List Str :=
  [ofString "DROP", ofString "KEEP", ofString "RENAME", ofString "BY"]

/-- The keyword tuple that stops the continuation scan. -/
def scanBreakKeywords : List Str :=
  [ofString "SET", ofString "WHERE", ofString "IF", ofString "DROP",
   ofString "KEEP", ofString "RENAME", ofString "BY"]

/-- The source test `'=' in line and not line.upper().startswith(('DROP',
'KEEP', 'RENAME', 'BY'))`. -/
def isAssignLine (line : Str) : Bool :=
  line.contains '=' && !startsWithAny dkrbKeywords (upper line)

/-- Inner while-loop of the multi-line combining pass (source lines
101–114): append continuation lines onto the assignment until a blank line,
`RUN;`, a statement keyword, or another assignment is met (left for the
outer loop), or a line containing `;` is appended — and, as in the source,
that line is still left for the outer loop to process again. -/
def combineScan : List Str → Str → Str × List Str
  | [], acc => (acc, [])
  | l :: ls, acc =>
    let nl := strip l
    if nl.isEmpty || upper nl == ofString "RUN;" then (acc, l :: ls)
    else if startsWithAny scanBreakKeywords (upper nl) then (acc, l :: ls)
    else if isAssignLine nl then (acc, l :: ls)
    else if nl.contains ';' then (acc ++ ' ' :: nl, l :: ls)
    else combineScan ls (acc ++ ' ' :: nl)

theorem combineScan_length :
    ∀ (ls : List Str) (acc : Str), (combineScan ls acc).2.length ≤ ls.length := by
  intro ls
  induction ls with
  | nil => intro acc; simp [combineScan]
  | cons l ls ih =>
    intro acc
    simp only [combineScan]
    split_ifs
    · simp
    · simp
    · simp
    · simp
    · exact le_trans (ih _) (by simp)

/-- Outer loop of the combining pass (source lines 87–121): skip blank and
`DATA` lines, stop at `RUN;`, start a continuation scan at each assignment
line, and copy any other line.  Fuel bounds the loop; the line count is
always enough since every step consumes at least one line
(`combinePassFuel_congr`). -/
def combinePassFuel : Nat → List Str → List Str
  | 0, _ => []
  | _ + 1, [] => []
  | fuel + 1, l :: ls =>
    let line := strip l
    if line.isEmpty || startsWith (ofString "DATA ") (upper line) then
      combinePassFuel fuel ls
    else if upper line == ofString "RUN;" then []
    else if isAssignLine line then
      let cr := combineScan ls line
      cr.1 :: combinePassFuel fuel cr.2
    else line :: combinePassFuel fuel ls

theorem combinePassFuel_congr :
    ∀ (n m : Nat) (ls : List Str), ls.length ≤ n → ls.length ≤ m →
      combinePassFuel n ls = combinePassFuel m ls := by
  intro n
  induction n with
  | zero =>
    intro m ls hn _
    have : ls = [] := List.length_eq_zero.mp (Nat.le_zero.mp hn)
    subst this
    cases m <;> rfl
  | succ n ih =>
    intro m ls hn hm
    cases ls with
    | nil => cases m <;> rfl
    | cons l ls =>
      have hm1 : ∃ m2, m = m2 + 1 := by
        cases m
        · simp at hm
        · exact ⟨_, rfl⟩
      obtain ⟨m2, rfl⟩ := hm1
      simp only [List.length_cons] at hn hm
      rw [combinePassFuel, combinePassFuel]
      have hscan := combineScan_length ls (strip l)
      split_ifs
      · exact ih m2 ls (by omega) (by omega)
      · rfl
      · simp only [ih m2 (combineScan ls (strip l)).2 (by omega) (by omega)]
      · simp only [ih m2 ls (by omega) (by omega)]

/-- The combining pass run with sufficient fuel. -/
def combinePass (ls : List Str) : List Str := combinePassFuel ls.length ls

/-- Capture of `(.+?)(?:\s*;)?$`: drop one trailing `;` and the whitespace
immediately before it. -/
def captureBody (r : Str) : Str :=
  if endsWith [';'] r then ((r.dropLast).reverse.dropWhile isSpace).reverse
  else r

/-- Text after an initial keyword of the given length and the following
whitespace, with the optional trailing `;` removed — the capture of the
source regexes of the shape `kw\s+(.+?)(?:\s*;)?$`. -/
def afterKeyword (kwLen : Nat) (line : Str) : Str :=
  captureBody ((line.drop kwLen).dropWhile isSpace)

/-- Second pass of `parse_data_step` (source lines 123–181): classify each
combined line and extend the collected lists. -/
def parseStep (info : DataStepInfo) (line0 : Str) : DataStepInfo :=
  let line := strip line0
  if line.isEmpty then info
  else if startsWith (ofString "SET ") (upper line) then
    { info with set_datasets :=
        info.set_datasets ++ (splitWs (afterKeyword 3 line)).map strip }
  else if startsWith (ofString "WHERE ") (upper line) then
    { info with where_conditions :=
        info.where_conditions ++ [strip (afterKeyword 5 line)] }
  else if startsWith (ofString "IF ") (upper line) then
    { info with variable_assignments := info.variable_assignments ++ [line] }
  else if isAssignLine line then
    { info with variable_assignments := info.variable_assignments ++ [line] }
  else if startsWith (ofString "DROP ") (upper line) then
    { info with drop_vars := info.drop_vars ++ (splitWs (afterKeyword 4 line)).map strip }
  else if startsWith (ofString "KEEP ") (upper line) then
    { info with keep_vars := info.keep_vars ++ (splitWs (afterKeyword 4 line)).map strip }
  else if startsWith (ofString "RENAME ") (upper line) then
    { info with rename_vars := (splitWs (afterKeyword 6 line)).foldl (fun rv pair =>
        if pair.contains '=' then
          adictSet rv (strip (pair.takeWhile (· != '=')))
            (strip ((pair.dropWhile (· != '=')).drop 1))
        else rv) info.rename_vars }
  else if startsWith (ofString "BY ") (upper line) then
    { info with by_vars := info.by_vars ++ (splitWs (afterKeyword 2 line)).map strip }
  else info

/-- Scan for the first non-blank line beginning `DATA ` (source lines
59–70); all other lines are skipped. -/
def findDataLine : List Str → Option Str
  | [] => none
  | l :: rest =>
    let s := strip l
    if s.isEmpty then findDataLine rest
    else if startsWith (ofString "DATA ") (upper s) then some s
    else findDataLine rest

/-- The regex `data\s+([^;]+)` with IGNORECASE matched at the start; the
capture (everything up to a `;` or the end) is stripped. -/
def parseDataName (line : Str) : Option Str :=
  if lower (line.take 4) == ofString "data" then
    let rest := line.drop 4
    let rest2 := rest.dropWhile isSpace
    if rest2.length == rest.length then none
    else
      let captured := rest2.takeWhile (· != ';')
      if captured.isEmpty then none else some (strip captured)
  else none

/-- Embedding of `DataStepParser.parse_data_step`: raises (`.error`) when
no `DATA` line exists; otherwise the output name comes from the `DATA` line
(staying `none` when the name regex fails, as the source keeps `None`), and
the remaining lines are combined and classified. -/
def parse_data_step (code : Str) : Except Unit DataStepInfo :=
  let lines := splitLines code
  match findDataLine lines with
  | none => .error ()
  | some dline =>
    .ok ((combinePass lines).foldl parseStep
      ⟨parseDataName dline, [], [], [], [], [], [], []⟩)

/-- Scanner state for `parse_datalines`. -/
structure DLState where
  inputStmt : Option Str
  dataLines : List Str
  inDL : Bool
  done : Bool

/-- One line of the `parse_datalines` scan (source lines 212–227): record
the `INPUT` line (dropping a trailing `;`), enter the literal section at
`DATALINES;`/`CARDS;`, stop at a lone `;`, and collect non-blank literal
lines. -/
def dlStep (st : DLState) (l : Str) : DLState :=
  if st.done then st
  else
    let line := strip l
    if startsWith (ofString "INPUT ") (upper line) then
      { st with inputStmt := some (if endsWith [';'] line then line.dropLast else line) }
    else if upper line == ofString "DATALINES;" || upper line == ofString "CARDS;" then
      { st with inDL := true }
    else if line == [';'] && st.inDL then { st with done := true }
    else if st.inDL && !line.isEmpty then
      { st with dataLines := st.dataLines ++ [line] }
    else st

/-- INPUT variable list (source lines 237–249): a token followed by a `$`
token is a text column (`true`), else numeric. -/
def parseInputVars : List Str → List (Str × Bool)
  | [] => []
  | p :: q :: rest =>
    if q == ['$'] then (p, true) :: parseInputVars rest
    else (p, false) :: parseInputVars (q :: rest)
  | [p] => [(p, false)]

/-- One accepted row: text tokens verbatim; numeric tokens through `float`,
a failed parse becoming a missing cell. -/
def mkRow (vars : List (Str × Bool)) (toks : List Str) : List Value :=
  List.zipWith (fun (v : Str × Bool) tok =>
    if v.2 then Value.str tok
    else match pyFloat tok with
      | some q => Value.num q
      | none => Value.missing) vars toks

/-- Row-building loop (source lines 252–265): a literal line becomes a row
exactly when its whitespace token count equals the variable count. -/
def buildRows (vars : List (Str × Bool)) (dlines : List Str) : List (List Value) :=
  dlines.filterMap (fun l =>
    if (splitWs l).length = vars.length then some (mkRow vars (splitWs l)) else none)

/-- DataFrame from the accepted row dicts: columns in INPUT order. -/
def tableFromRows (vars : List (Str × Bool)) (rows : List (List Value)) : Table :=
  ⟨vars.enum.map (fun jv => (jv.2.1, rows.map (fun r => (r.get? jv.1).getD .missing)))⟩

/-- Embedding of `DataStepParser.parse_datalines`: scan the block for the
`INPUT` line and the literal lines, then build the table; no data lines, no
`INPUT` line, or no accepted rows all give the empty DataFrame. -/
def parse_datalines (code : Str) : Table :=
  let st := (splitLines code).foldl dlStep ⟨none, [], false, false⟩
  match st.inputStmt with
  | none => ⟨[]⟩
  | some inputStmt =>
    if st.dataLines.isEmpty then ⟨[]⟩
    else
      let vars := parseInputVars (splitWs (strip (inputStmt.drop 6)))
      match buildRows vars st.dataLines with
      | [] => ⟨[]⟩
      | rows => tableFromRows vars rows

/-- Workspace key: `some name` for a Python string key; `none` models the
`None` key used when the DATA-name regex failed. -/
abbrev Key := Option Str

/-- The dataset workspace `self.data_sets`, with Python dict insertion
order: new keys append at the end, updates stay in place. -/
abbrev Workspace := List (Key × Table)

def wsLookup : Workspace → Key → Option Table
  | [], _ => none
  | (n, v) :: rest, k => if n = k then some v else wsLookup rest k

def wsSet : Workspace → Key → Table → Workspace
  | [], k, v => [(k, v)]
  | (n, w) :: rest, k, v =>
    if n = k then (n, v) :: rest else (n, w) :: wsSet rest k v

def wsKeys (w : Workspace) : List Key := w.map Prod.fst

/-- Modelled from the spec: the library-manager collaborator of §6
(`LibnameManager.load_dataset` is not under `src/`), abstracted as a
function from qualified dataset names to optionally loadable tables. -/
abbrev Library := Str → Option Table

/-- Modelled from the spec: `DataUtils.drop_columns` is not under `src/`;
§4.3 step (4): drop the listed columns. -/
def drop_columns (t : Table) (vars : List Str) : Table :=
  ⟨t.cols.filter (fun c => !(vars.contains c.1))⟩

/-- Modelled from the spec: `DataUtils.select_columns` is not under `src/`;
§4.3 step (5): keep only the listed columns. -/
def select_columns (t : Table) (vars : List Str) : Table :=
  ⟨t.cols.filter (fun c => vars.contains c.1)⟩

/-- Modelled from the spec: `DataUtils.rename_columns` is not under `src/`;
§4.3 step (6): apply the rename pairs. -/
def rename_columns (t : Table) (pairs : List (Str × Str)) : Table :=
  ⟨t.cols.map (fun c =>
    match alookup pairs c.1 with
    | some nw => (nw, c.2)
    | none => c)⟩

/-- Row filter by a boolean mask. -/
def maskFilter (mask : List Bool) (col : List Value) : List Value :=
  (List.zip mask col).filterMap (fun p => if p.1 then some p.2 else none)

/-- Modelled from the spec: `DataUtils.apply_where_condition` is not under
`src/`; §4.3 step (2): evaluate the predicate (§4.2) and narrow the rows. -/
def apply_where_condition (t : Table) (cond : Str) : Table :=
  let mask := parse_where_condition cond t
  ⟨t.cols.map (fun c => (c.1, maskFilter mask c.2))⟩

/-- The `DATA`-name scan of the DATALINES branch (source lines 229–244):
the first line whose stripped text begins `DATA ` and whose raw text
matches the name regex wins; on a regex failure the loop continues. -/
def findStoreData : List Str → Option Str
  | [] => none
  | l :: rest =>
    if startsWith (ofString "DATA ") (upper (strip l)) then
      match parseDataName l with
      | some name => some name
      | none => findStoreData rest
    else findStoreData rest

/-- Source-table resolution of `_execute_data_step` (lines 249–275): no SET
gives an empty frame; an in-memory table is used (copied — value semantics
here); otherwise a dotted name is loaded from the library and also cached
into the workspace; a failed lookup is the `ERROR ... return` path. -/
def resolveDataInput (lib : Library) (info : DataStepInfo) (w : Workspace) :
    Except Unit (Workspace × Table) :=
  match info.set_datasets with
  | [] => .ok (w, ⟨[]⟩)
  | ds :: _ =>
    match wsLookup w (some ds) with
    | some t => .ok (w, t)
    | none =>
      if ds.contains '.' then
        match lib ds with
        | some t => .ok (wsSet w (some ds) t, t)
        | none => .error ()
      else .error ()

/-- Transformation pipeline of `_execute_data_step` (lines 277–304), in the
source's fixed order: every WHERE filter, then every assignment or
conditional in listed order, then DROP, then KEEP, then RENAME (each list
applied only when non-empty, as the Python truthiness tests do). -/
def runDataPipeline (info : DataStepInfo) (input : Table) : Table :=
  let afterWhere := info.where_conditions.foldl apply_where_condition input
  let afterAssign := info.variable_assignments.foldl (fun d a =>
    if startsWith (ofString "if ") (lower a) then evaluate_if_then_else a d
    else evaluate_assignment a d) afterWhere
  let d1 := if info.drop_vars.isEmpty then afterAssign
            else drop_columns afterAssign info.drop_vars
  let d2 := if info.keep_vars.isEmpty then d1
            else select_columns d1 info.keep_vars
  if info.rename_vars.isEmpty then d2
  else rename_columns d2 info.rename_vars

/-- The non-DATALINES branch of `_execute_data_step`: parse (a raise
escapes as `.error`), resolve the input, run the pipeline, and bind the
result to the output name. -/
def execDataStepNormal (lib : Library) (stmt : Str) (w : Workspace) :
    Except Unit Workspace :=
  match parse_data_step stmt with
  | .error _ => .error ()
  | .ok info =>
    match resolveDataInput lib info w with
    | .error _ => .ok w
    | .ok wi => .ok (wsSet wi.1 info.output_dataset (runDataPipeline info wi.2))

/-- Body of `_execute_data_step` (the Python `try` block).  A `.error`
result models an uncaught raise inside the statement (the parse raise,
which precedes any workspace commit); the "dataset not found" paths print
and return normally, leaving the workspace unchanged. -/
def execDataStepCore (lib : Library) (stmt : Str) (w : Workspace) :
    Except Unit Workspace :=
  if containsSub (ofString "datalines") (lower stmt) ||
      containsSub (ofString "cards") (lower stmt) then
    if (parse_datalines stmt).cols.isEmpty then .ok w
    else
      match findStoreData (splitLines stmt) with
      | some name => .ok (wsSet w (some name) (parse_datalines stmt))
      | none => .ok w
  else execDataStepNormal lib stmt w

/-- Embedding of `_execute_data_step` with its `except` wrapper: a raise is
caught and leaves the workspace as committed so far. -/
def execDataStep (lib : Library) (stmt : Str) (w : Workspace) : Workspace :=
  match execDataStepCore lib stmt w with
  | .ok w2 => w2
  | .error _ => w

/-- Parsed PROC statement (`ProcStatement` in the source); the options map
is consumed only by the external procedure implementations and is
represented by the collected raw sub-statement lines. -/
structure ProcInfo where
  proc_name : Option Str
  data_option : Option Str
  output_option : Option Str
  statements : List Str
deriving DecidableEq, Repr

/-- Result shape a procedure implementation returns (§6); the printed
report lines are omitted. -/
structure ProcResult where
  output_data : Option Table
  output_dataset : Option Str

/-- Modelled from the spec: the procedure registry (§6); the
implementations under `src/open_sas/procs` are outside the claims' scope,
so the registry is an abstract parameter mapping an upper-case procedure
name to an implementation. -/
abbrev ProcRegistry := Str → Option (Table → ProcInfo → ProcResult)

/-- Try the regex `kw\s*=\s*(V+)` at the head of `s`, where the value class
`V` is word characters, plus `.` when `dot` is set. -/
def matchKeyEqAt (kw : Str) (dot : Bool) (s : Str) : Option Str :=
  if lower (s.take kw.length) == kw then
    match (s.drop kw.length).dropWhile isSpace with
    | '=' :: r2 =>
      let v := (r2.dropWhile isSpace).takeWhile (fun c => isWordChar c || (dot && c == '.'))
      if v.isEmpty then none else some v
    | _ => none
  else none

/-- Python `re.search` for the option regexes: the match at the leftmost
starting position anywhere in the options text. -/
def searchKeyEq (kw : Str) (dot : Bool) : Str → Option Str
  | [] => none
  | c :: rest =>
    match matchKeyEqAt kw dot (c :: rest) with
    | some v => some v
    | none => searchKeyEq kw dot rest

/-- Scan for the first line whose stripped text begins `PROC `. -/
def findProcLine : List Str → Option Str
  | [] => none
  | l :: rest =>
    let s := strip l
    if startsWith (ofString "PROC ") (upper s) then some s else findProcLine rest

/-- The regex `proc\s+(\w+)(?:\s+(.+?))?(?:\s*;)?$` with IGNORECASE:
procedure name (upper-cased) and its options text (empty when absent). -/
def parseProcLine (line : Str) : Option (Str × Str) :=
  if lower (line.take 4) == ofString "proc" then
    let rest := line.drop 4
    let rest2 := rest.dropWhile isSpace
    if rest2.length == rest.length then none
    else
      let name := rest2.takeWhile isWordChar
      if name.isEmpty then none
      else
        let after := rest2.drop name.length
        if after.isEmpty then some (upper name, [])
        else
          let afterWs := after.dropWhile isSpace
          if afterWs.length == after.length then
            if after == [';'] then some (upper name, []) else none
          else if afterWs.isEmpty then some (upper name, [])
          else some (upper name, captureBody afterWs)
  else none

/-- Sub-statement collection loop of `parse_proc` (source lines 110–158):
skip blanks and `PROC` lines, stop at `RUN;`/`QUIT;`, skip `*`/`/*` comment
lines, collect the rest. -/
def procStmtStep (st : List Str × Bool) (l : Str) : List Str × Bool :=
  if st.2 then st
  else
    let line := strip l
    if line.isEmpty || startsWith (ofString "PROC ") (upper line) then st
    else if upper line == ofString "RUN;" || upper line == ofString "QUIT;" then
      (st.1, true)
    else if startsWith ['*'] line || startsWith ['/', '*'] line then st
    else (st.1 ++ [line], false)

/-- Embedding of `ProcParser.parse_proc`: find the `PROC` line (raising
when absent; the source's secondary first-line fallback can never fire when
the scan failed); the name and the `DATA=`/`OUT=` options come from the
line regexes, staying `None` when the line regex fails, as in the source. -/
def parse_proc (code : Str) : Except Unit ProcInfo :=
  let lines := splitLines code
  match findProcLine lines with
  | none => .error ()
  | some pline =>
    let parsed := parseProcLine pline
    .ok { proc_name := parsed.map Prod.fst,
          data_option := parsed.bind (fun p => searchKeyEq (ofString "data") true p.2),
          output_option := parsed.bind (fun p => searchKeyEq (ofString "out") false p.2),
          statements := (lines.foldl procStmtStep ([], false)).1 }

/-- Input-table resolution of `_execute_proc` (source lines 330–360): an
explicit `DATA=` name is looked up in memory, then (when dotted) loaded
from the library and cached; with no `DATA=` option the last key of the
workspace — the most recently added dataset — is used; an empty workspace
is the `ERROR: No dataset available` path. -/
def resolveProcInput (lib : Library) (dopt : Option Str) (w : Workspace) :
    Except Unit (Workspace × Key × Table) :=
  match dopt with
  | some ds =>
    match wsLookup w (some ds) with
    | some t => .ok (w, some ds, t)
    | none =>
      if ds.contains '.' then
        match lib ds with
        | some t => .ok (wsSet w (some ds) t, some ds, t)
        | none => .error ()
      else .error ()
  | none =>
    match (wsKeys w).getLast? with
    | none => .error ()
    | some k =>
      match wsLookup w k with
      | some t => .ok (w, k, t)
      | none => .error ()

/-- Embedding of `SASInterpreter._execute_proc`: parse, resolve the input,
dispatch to the registry, and store a produced output table under the
`OUT=` name or the result's own output name; every failure path leaves the
workspace as committed so far. -/
def execProc (reg : ProcRegistry) (lib : Library) (stmt : Str) (w : Workspace) :
    Workspace :=
  match parse_proc stmt with
  | .error _ => w
  | .ok info =>
    match resolveProcInput lib info.data_option w with
    | .error _ => w
    | .ok wkt =>
      match info.proc_name.bind reg with
      | none => wkt.1
      | some impl =>
        match (impl wkt.2.2 info).output_data with
        | none => wkt.1
        | some d =>
          match info.output_option with
          | some o => wsSet wkt.1 (some o) d
          | none =>
            match (impl wkt.2.2 info).output_dataset with
            | some n => wsSet wkt.1 (some n) d
            | none => wkt.1

/-- Embedding of `SASInterpreter._execute_statement`: dispatch on the
leading keyword.  The LIBNAME and %LET handlers touch only the
library-alias and macro-variable tables, never the dataset workspace, and
the RUN and unrecognized branches only print, so all four are
workspace-identities. -/
def execStatement (reg : ProcRegistry) (lib : Library) (w : Workspace) (stmt0 : Str) :
    Workspace :=
  if (strip stmt0).isEmpty then w
  else if startsWith (ofString "DATA ") (upper (strip stmt0)) then
    execDataStep lib (strip stmt0) w
  else if startsWith (ofString "PROC ") (upper (strip stmt0)) then
    execProc reg lib (strip stmt0) w
  else w

/-- The statement loop of `SASInterpreter.run_code`: execute each non-blank
statement in order. -/
def runStatements (reg : ProcRegistry) (lib : Library) (stmts : List Str)
    (w : Workspace) : Workspace :=
  stmts.foldl (fun wa s => if (strip s).isEmpty then wa else execStatement reg lib wa s) w

/-- Embedding of `SASInterpreter.run_code` on post-macro text (the macro
pass is an external collaborator, §6): clean comments, segment, and execute
the statements in order against the workspace. -/
def run_code (reg : ProcRegistry) (lib : Library) (code : Str) (w : Workspace) :
    Workspace :=
  runStatements reg lib (splitStatements (cleanCode code)) w

/-- A library with no stored datasets, for concrete runs. -/
def emptyLibrary : Library := fun _ => none

/-- An empty procedure registry, for concrete runs. -/
def emptyRegistry : ProcRegistry := fun _ => none

/-- Modelled from the spec's words, for comparison with the source rule
(refinement check of the line-comment contract): scan the line tracking
quoted spans (a span opens at `'` or `"` and closes at the next identical
quote); the first `*` found outside any quoted span starts a comment and
the remainder of the line is dropped. -/
def specStripAux : Option Char → Str → Str
  | _, [] => []
  | none, '*' :: _ => []
  | none, c :: rest =>
    if c = '\'' || c = '"' then c :: specStripAux (some c) rest
    else c :: specStripAux none rest
  | some q, c :: rest => c :: specStripAux (if c = q then none else some q) rest

/-- Modelled from the spec: the line-comment rule as the spec states it. -/
def specStripLineComment (line : Str) : Str := specStripAux none line

theorem alookup_adictSet_self {α : Type} :
    ∀ (l : List (Str × α)) (n : Str) (v : α), alookup (adictSet l n v) n = some v := by
  intro l
  induction l with
  | nil => intro n v; simp [adictSet, alookup]
  | cons p rest ih =>
    intro n v
    obtain ⟨m, t⟩ := p
    rw [adictSet]
    by_cases h : m = n
    · rw [if_pos h, alookup, if_pos h]
    · rw [if_neg h, alookup, if_neg h]
      exact ih n v

theorem alookup_adictSet_ne {α : Type} :
    ∀ (l : List (Str × α)) (n m : Str) (v : α), m ≠ n →
      alookup (adictSet l n v) m = alookup l m := by
  intro l
  induction l with
  | nil =>
    intro n m v h
    have h2 : ¬(n = m) := fun hc => h hc.symm
    simp [adictSet, alookup, h2]
  | cons p rest ih =>
    intro n m v h
    obtain ⟨p1, t⟩ := p
    rw [adictSet]
    by_cases hp : p1 = n
    · rw [if_pos hp, alookup, alookup]
      by_cases hm : p1 = m
      · exact absurd (hm.symm.trans hp) h
      · rw [if_neg hm, if_neg hm]
    · rw [if_neg hp, alookup, alookup]
      by_cases hm : p1 = m
      · rw [if_pos hm, if_pos hm]
      · rw [if_neg hm, if_neg hm]
        exact ih n m v h

theorem getCol_setCol_self (t : Table) (n : Str) (v : List Value) :
    (t.setCol n v).getCol n = some v :=
  alookup_adictSet_self t.cols n v

theorem getCol_setCol_ne (t : Table) (n m : Str) (v : List Value) (h : m ≠ n) :
    (t.setCol n v).getCol m = t.getCol m :=
  alookup_adictSet_ne t.cols n m v h

theorem wsLookup_wsSet_self :
    ∀ (w : Workspace) (k : Key) (v : Table), wsLookup (wsSet w k v) k = some v := by
  intro w
  induction w with
  | nil => intro k v; simp [wsSet, wsLookup]
  | cons p rest ih =>
    intro k v
    obtain ⟨m, t⟩ := p
    rw [wsSet]
    by_cases h : m = k
    · rw [if_pos h, wsLookup, if_pos h]
    · rw [if_neg h, wsLookup, if_neg h]
      exact ih k v

theorem wsLookup_wsSet_ne :
    ∀ (w : Workspace) (k k2 : Key) (v : Table), k ≠ k2 →
      wsLookup (wsSet w k2 v) k = wsLookup w k := by
  intro w
  induction w with
  | nil =>
    intro k k2 v h
    have h2 : ¬(k2 = k) := fun hc => h hc.symm
    simp [wsSet, wsLookup, h2]
  | cons p rest ih =>
    intro k k2 v h
    obtain ⟨m, t⟩ := p
    rw [wsSet]
    by_cases hm : m = k2
    · rw [if_pos hm, wsLookup, wsLookup]
      by_cases hk : m = k
      · exact absurd (hk.symm.trans hm) h
      · rw [if_neg hk, if_neg hk]
    · rw [if_neg hm, wsLookup, wsLookup]
      by_cases hk : m = k
      · rw [if_pos hk, if_pos hk]
      · rw [if_neg hk, if_neg hk]
        exact ih k k2 v h

theorem wsLookup_wsSet_isSome :
    ∀ (w : Workspace) (k k2 : Key) (v : Table),
      (wsLookup w k).isSome = true → (wsLookup (wsSet w k2 v) k).isSome = true := by
  intro w k k2 v h
  by_cases hk : k = k2
  · subst hk
    rw [wsLookup_wsSet_self]
    rfl
  · rw [wsLookup_wsSet_ne w k k2 v hk]
    exact h

theorem beforeChar_isPrefix :
    ∀ (l b : Str) (c : Char), beforeChar c l = some b → b <+: l := by
  intro l
  induction l with
  | nil => intro b c h; simp [beforeChar] at h
  | cons d rest ih =>
    intro b c h
    rw [beforeChar] at h
    by_cases hd : (d == c) = true
    · rw [if_pos hd] at h
      injection h with h
      subst h
      exact ⟨d :: rest, rfl⟩
    · rw [if_neg hd] at h
      obtain ⟨b2, hb2, hfb⟩ := Option.map_eq_some'.mp h
      subst hfb
      obtain ⟨tail2, ht⟩ := ih b2 c hb2
      exact ⟨tail2, by rw [List.cons_append, ht]⟩

theorem wsLookup_isSome_of_mem_keys :
    ∀ (w : Workspace) (k : Key), k ∈ wsKeys w → (wsLookup w k).isSome = true := by
  intro w
  induction w with
  | nil => intro k h; simp [wsKeys] at h
  | cons p rest ih =>
    intro k h
    obtain ⟨n, t⟩ := p
    rw [wsLookup]
    by_cases hn : n = k
    · rw [if_pos hn]; rfl
    · rw [if_neg hn]
      rcases List.mem_cons.mp h with h1 | h2
      · exact absurd h1.symm hn
      · exact ih k h2

theorem resolveDataInput_extends (lib : Library) (info : DataStepInfo) (w : Workspace)
    (wi : Workspace × Table) (h : resolveDataInput lib info w = .ok wi) :
    ∀ k, (wsLookup w k).isSome = true → (wsLookup wi.1 k).isSome = true := by
  intro k hk
  unfold resolveDataInput at h
  split at h
  · injection h with h2
    subst h2
    exact hk
  · split at h
    · injection h with h2
      subst h2
      exact hk
    · split at h
      · split at h
        · injection h with h2
          subst h2
          exact wsLookup_wsSet_isSome w k _ _ hk
        · exact absurd h (by simp)
      · exact absurd h (by simp)

theorem execDataStepCore_extends (lib : Library) (stmt : Str) (w w2 : Workspace)
    (h : execDataStepCore lib stmt w = .ok w2) :
    ∀ k, (wsLookup w k).isSome = true → (wsLookup w2 k).isSome = true := by
  intro k hk
  unfold execDataStepCore at h
  split at h
  · split at h
    · injection h with h2
      subst h2
      exact hk
    · split at h
      · injection h with h2
        subst h2
        exact wsLookup_wsSet_isSome w k _ _ hk
      · injection h with h2
        subst h2
        exact hk
  · unfold execDataStepNormal at h
    split at h
    · exact absurd h (by simp)
    · split at h
      · injection h with h2
        subst h2
        exact hk
      · next wi hres =>
        injection h with h2
        subst h2
        exact wsLookup_wsSet_isSome _ k _ _
          (resolveDataInput_extends lib _ w wi hres k hk)

theorem execDataStep_mono (lib : Library) (stmt : Str) (w : Workspace) (k : Key)
    (hk : (wsLookup w k).isSome = true) :
    (wsLookup (execDataStep lib stmt w) k).isSome = true := by
  unfold execDataStep
  cases hc : execDataStepCore lib stmt w with
  | error e => exact hk
  | ok w2 => exact execDataStepCore_extends lib stmt w w2 hc k hk

theorem resolveProcInput_extends (lib : Library) (dopt : Option Str) (w : Workspace)
    (wkt : Workspace × Key × Table) (h : resolveProcInput lib dopt w = .ok wkt) :
    ∀ k, (wsLookup w k).isSome = true → (wsLookup wkt.1 k).isSome = true := by
  intro k hk
  unfold resolveProcInput at h
  split at h
  · split at h
    · injection h with h2
      subst h2
      exact hk
    · split at h
      · split at h
        · injection h with h2
          subst h2
          exact wsLookup_wsSet_isSome w k _ _ hk
        · exact absurd h (by simp)
      · exact absurd h (by simp)
  · split at h
    · exact absurd h (by simp)
    · split at h
      · injection h with h2
        subst h2
        exact hk
      · exact absurd h (by simp)

theorem execProc_mono (reg : ProcRegistry) (lib : Library) (stmt : Str)
    (w : Workspace) (k : Key) (hk : (wsLookup w k).isSome = true) :
    (wsLookup (execProc reg lib stmt w) k).isSome = true := by
  unfold execProc
  split
  · exact hk
  · next info hinfo =>
    split
    · exact hk
    · next wkt hres =>
      have hext := resolveProcInput_extends lib info.data_option w wkt hres k hk
      split
      · exact hext
      · split
        · exact hext
        · split
          · exact wsLookup_wsSet_isSome _ k _ _ hext
          · split
            · exact wsLookup_wsSet_isSome _ k _ _ hext
            · exact hext

theorem execStatement_mono (reg : ProcRegistry) (lib : Library) (s : Str)
    (w : Workspace) (k : Key) (hk : (wsLookup w k).isSome = true) :
    (wsLookup (execStatement reg lib w s) k).isSome = true := by
  unfold execStatement
  split_ifs
  · exact hk
  · exact execDataStep_mono lib _ w k hk
  · exact execProc_mono reg lib _ w k hk
  · exact hk

theorem specStripAux_no_quotes :
    ∀ (l : Str), '\'' ∉ l → '"' ∉ l →
      specStripAux none l =
        (match beforeChar '*' l with
         | none => l
         | some b => b) := by
  intro l
  induction l with
  | nil => intro _ _; rfl
  | cons c rest ih =>
    intro h1 h2
    have hrest1 : '\'' ∉ rest := fun hm => h1 (List.mem_cons_of_mem c hm)
    have hrest2 : '"' ∉ rest := fun hm => h2 (List.mem_cons_of_mem c hm)
    have hc1 : ¬(c = '\'') := fun he => h1 (he ▸ List.mem_cons_self c rest)
    have hc2 : ¬(c = '"') := fun he => h2 (he ▸ List.mem_cons_self c rest)
    by_cases hc : c = '*'
    · subst hc
      simp [specStripAux, beforeChar]
    · cases hb : beforeChar '*' rest with
      | none => simp [specStripAux, beforeChar, hc, hc1, hc2, hb, ih hrest1 hrest2]
      | some b => simp [specStripAux, beforeChar, hc, hc1, hc2, hb, ih hrest1 hrest2]

/-- Claim C1, counterexample: concatenating the raw text of the statement
blocks does NOT reconstruct the comment-stripped script: segmenting
`proc print;` yields the single block `proc print`, whose concatenation is
missing the final semicolon. -/
theorem c1_counterexample_concat_mismatch :
    (splitStatements (cleanCode (ofString "proc print;"))).flatten ≠
      cleanCode (ofString "proc print;") := by
  decide

/-- Claim C1 (amended): segmentation is lossy — blocks are
whitespace-stripped, blank lines are dropped, and a `PROC` line's trailing
semicolon is removed, so concatenating the blocks need not reconstruct the
comment-stripped input; in particular `proc print;` is comment-clean yet
segments into exactly the block `proc print` without its semicolon. -/
theorem c1_amended_segmentation_lossy :
    splitStatements (cleanCode (ofString "proc print;")) = [ofString "proc print"] ∧
    cleanCode (ofString "proc print;") = ofString "proc print;" :=
  ⟨by decide, by decide⟩

/-- Claim C5, counterexample: an open PROC block is not closed only by
`RUN;`/`QUIT;` — the first following line ending in `;` closes it: for
`proc print;` / `var x;` / `where y;` / `run;` the segmenter yields TWO
blocks (the claim requires a single block containing every line up to the
closer), with `where y;` segmented outside the PROC block and `run;`
dropped. -/
theorem c5_counterexample_semicolon_closes_proc :
    splitStatements (cleanCode (ofString "proc print;\nvar x;\nwhere y;\nrun;")) =
      [ofString "proc print var x;", ofString "where y;"] ∧
    (splitStatements (cleanCode (ofString "proc print;\nvar x;\nwhere y;\nrun;"))).length ≠ 1 :=
  ⟨by decide, by decide⟩

/-- Claim C5 (amended): after a `PROC` line, the open block is closed by
the first subsequent line ending in `;` (which is appended to it), not only
by `RUN;`; `QUIT;` has no special handling and closes a block only through
this generic semicolon rule; later sub-statement lines become separate
blocks and a `RUN;` met with an empty pending block is dropped. -/
theorem c5_amended_proc_block_closure :
    splitStatements (cleanCode (ofString "proc means data=t;\nquit;\nvar z;\nrun;")) =
      [ofString "proc means data=t quit;", ofString "var z;"] := by
  decide

/-- Claim C6, counterexample: when the first `*` of a line lies inside
quotes, the code keeps the whole line, even though a later unquoted `*`
exists; the claim (modelled by `specStripLineComment`) requires truncation
at that later unquoted `*`. -/
theorem c6_counterexample_quoted_star :
    stripLineComment (ofString "msg='*'; z=a*b;") = ofString "msg='*'; z=a*b;" ∧
    specStripLineComment (ofString "msg='*'; z=a*b;") = ofString "msg='*'; z=a" ∧
    stripLineComment (ofString "msg='*'; z=a*b;") ≠
      specStripLineComment (ofString "msg='*'; z=a*b;") :=
  ⟨by decide, by decide, by decide⟩

/-- Claim C6 (amended): only the FIRST `*` of a line is examined — the line
is truncated there exactly when the quote counts before it are even, and is
otherwise left whole; on lines containing no quote characters this
coincides with the spec's rule (first unquoted `*` starts the comment). -/
theorem c6_amended_first_star_rule :
    ∀ (line : Str), '\'' ∉ line → '"' ∉ line →
      stripLineComment line = specStripLineComment line := by
  intro line h1 h2
  unfold specStripLineComment
  rw [specStripAux_no_quotes line h1 h2]
  unfold stripLineComment
  cases hb : beforeChar '*' line with
  | none => rfl
  | some b =>
    have hpre := beforeChar_isPrefix line b '*' hb
    have hz1 : line.count '\'' = 0 := List.count_eq_zero.mpr h1
    have hz2 : line.count '"' = 0 := List.count_eq_zero.mpr h2
    have hcount1 : b.count '\'' = 0 := by
      have hle := hpre.sublist.count_le '\''
      omega
    have hcount2 : b.count '"' = 0 := by
      have hle := hpre.sublist.count_le '"'
      omega
    simp [hb, hcount1, hcount2]

/-- Claim C2: a conditional assignment `IF cond THEN var = value` creates
column `var` when absent (all rows missing), writes the value into exactly
the rows selected by the predicate mask, leaves every other row's existing
value and every other column unchanged; and over rows `x = [5, 15, 20]` the
statement `if x > 10 then y = 'Hi'` yields `y = [missing, 'Hi', 'Hi']`. -/
theorem c2_masked_conditional_assignment :
    (∀ (t : Table) (cond var value : Str),
      (isQuotedBy '"' value || isQuotedBy '\'' value) = true →
      (applyCondAssign cond var value t).getCol var =
        some (List.zipWith (fun m old => if m then Value.str (unquote value) else old)
          (parse_where_condition cond t)
          ((t.getCol var).getD (List.replicate t.rowCount Value.missing))) ∧
      (∀ c, c ≠ var → (applyCondAssign cond var value t).getCol c = t.getCol c)) ∧
    evaluate_if_then_else (ofString "if x > 10 then y = 'Hi'")
        ⟨[(ofString "x", [.num 5, .num 15, .num 20])]⟩ =
      ⟨[(ofString "x", [.num 5, .num 15, .num 20]),
        (ofString "y", [.missing, .str (ofString "Hi"), .str (ofString "Hi")])]⟩ := by
  constructor
  · intro t cond var value hq
    have hmain : applyCondAssign cond var value t =
        maskedWriteConst (condTarget var t) var (parse_where_condition cond t)
          (Value.str (unquote value)) := by
      unfold applyCondAssign
      by_cases h1 : isQuotedBy '"' value = true
      · rw [if_pos h1]
      · have h2 : isQuotedBy '\'' value = true := by
          rw [Bool.or_eq_true] at hq
          rcases hq with h | h
          · exact absurd h h1
          · exact h
        rw [if_neg h1, if_pos h2]
    have hbase : (condTarget var t).getCol var =
        some ((t.getCol var).getD (List.replicate t.rowCount Value.missing)) := by
      unfold condTarget
      cases hv : t.getCol var with
      | some col => simp [hv]
      | none => simp [hv, getCol_setCol_self]
    rw [hmain]
    constructor
    · unfold maskedWriteConst
      rw [hbase]
      exact getCol_setCol_self _ var _
    · intro c hc
      have hother : (condTarget var t).getCol c = t.getCol c := by
        unfold condTarget
        cases hv : t.getCol var with
        | some col => simp [hv]
        | none => simp [hv, getCol_setCol_ne t var c _ hc]
      unfold maskedWriteConst
      rw [hbase]
      exact (getCol_setCol_ne _ var c _ hc).trans hother
  · decide

/-- Claim C2, witness: the masked-write theorem applied at the concrete
table `x = [5, 15, 20]`, condition `x > 10`, target `y` and value `'Hi'`. -/
theorem c2_masked_conditional_assignment_witness :
    (applyCondAssign (ofString "x > 10") (ofString "y") (ofString "'Hi'")
        ⟨[(ofString "x", [.num 5, .num 15, .num 20])]⟩).getCol (ofString "y") =
      some [Value.missing, .str (ofString "Hi"), .str (ofString "Hi")] := by
  have h := (c2_masked_conditional_assignment.1
    ⟨[(ofString "x", [.num 5, .num 15, .num 20])]⟩
    (ofString "x > 10") (ofString "y") (ofString "'Hi'") (by decide)).1
  rw [h]
  decide

/-- Claim C3: DROP, KEEP and RENAME are applied in that fixed order after
all assignments, regardless of their textual position: a DATA step whose
assignments produce columns a, b, c with `drop b;` and `rename a=z;` in
either textual order binds an output table with columns z, c, for every
starting workspace. -/
theorem c3_drop_keep_rename_fixed_order :
    ∀ (w : Workspace),
      wsLookup (execDataStep emptyLibrary
          (ofString "data out;\na = 1;\nb = 2;\nc = 3;\ndrop b;\nrename a=z;\nrun;") w)
        (some (ofString "out")) =
        some ⟨[(ofString "z", []), (ofString "c", [])]⟩ ∧
      wsLookup (execDataStep emptyLibrary
          (ofString "data out;\na = 1;\nb = 2;\nc = 3;\nrename a=z;\ndrop b;\nrun;") w)
        (some (ofString "out")) =
        some ⟨[(ofString "z", []), (ofString "c", [])]⟩ := by
  intro w
  constructor
  · have h : execDataStep emptyLibrary
        (ofString "data out;\na = 1;\nb = 2;\nc = 3;\ndrop b;\nrename a=z;\nrun;") w =
          wsSet w (some (ofString "out")) ⟨[(ofString "z", []), (ofString "c", [])]⟩ := rfl
    rw [h, wsLookup_wsSet_self]
  · have h : execDataStep emptyLibrary
        (ofString "data out;\na = 1;\nb = 2;\nc = 3;\nrename a=z;\ndrop b;\nrun;") w =
          wsSet w (some (ofString "out")) ⟨[(ofString "z", []), (ofString "c", [])]⟩ := rfl
    rw [h, wsLookup_wsSet_self]

/-- Claim C4: statements are executed inside isolating boundaries — the
statement loop always proceeds to the next statement (second conjunct, the
loop step holds unconditionally, with no abort path in the result type),
and every table present in the workspace before a run is still present
after it, whatever failures occur (first conjunct). -/
theorem c4_statement_isolation :
    (∀ (reg : ProcRegistry) (lib : Library) (stmts : List Str) (w : Workspace) (k : Key),
        (wsLookup w k).isSome = true →
        (wsLookup (runStatements reg lib stmts w) k).isSome = true) ∧
    (∀ (reg : ProcRegistry) (lib : Library) (s : Str) (rest : List Str) (w : Workspace),
        runStatements reg lib (s :: rest) w =
          runStatements reg lib rest
            (if (strip s).isEmpty then w else execStatement reg lib w s)) := by
  constructor
  · intro reg lib stmts
    induction stmts with
    | nil => intro w k hk; exact hk
    | cons s rest ih =>
      intro w k hk
      show (wsLookup (runStatements reg lib rest
        (if (strip s).isEmpty then w else execStatement reg lib w s)) k).isSome = true
      by_cases he : (strip s).isEmpty = true
      · rw [if_pos he]
        exact ih w k hk
      · rw [if_neg he]
        exact ih _ k (execStatement_mono reg lib s w k hk)
  · intro reg lib s rest w
    rfl

/-- Claim C4, witness: a run whose first statement fails (its SET source is
missing) still executes the following PROC statement and keeps the
pre-existing table `alpha` in the workspace. -/
theorem c4_statement_isolation_witness :
    (wsLookup (runStatements emptyRegistry emptyLibrary
        [ofString "data out;\nset nope;\nrun;", ofString "proc print data=alpha"]
        [(some (ofString "alpha"), ⟨[]⟩)]) (some (ofString "alpha"))).isSome = true :=
  c4_statement_isolation.1 emptyRegistry emptyLibrary
    [ofString "data out;\nset nope;\nrun;", ofString "proc print data=alpha"]
    [(some (ofString "alpha"), ⟨[]⟩)] (some (ofString "alpha")) (by decide)

/-- Claim C7: a function-call expression whose name is not in the fixed
registry, or which does not match the call regex at all, evaluates without
raising to an all-zero column whose row count equals the table's. -/
theorem c7_unknown_function_zero_column :
    ∀ (t : Table) (e : Str),
      (match parseFuncCall e with
       | none => true
       | some p => !(functionNames.contains (lower p.1))) = true →
      evaluate_function e t = List.replicate t.rowCount (Value.num 0) ∧
      (evaluate_function e t).length = t.rowCount := by
  intro t e h
  have hz : evaluate_function e t = List.replicate t.rowCount (Value.num 0) := by
    unfold evaluate_function
    cases hp : parseFuncCall e with
    | none => rfl
    | some p =>
      rw [hp] at h
      simp only [hp]
      rw [if_pos h]
  exact ⟨hz, by rw [hz]; exact List.length_replicate _ _⟩

/-- Claim C7, witness: the unknown name `foo` on a two-row table yields the
two-row zero column. -/
theorem c7_unknown_function_zero_column_witness :
    evaluate_function (ofString "foo(x)") ⟨[(ofString "x", [Value.num 1, Value.num 2])]⟩ =
      List.replicate
        (Table.rowCount ⟨[(ofString "x", [Value.num 1, Value.num 2])]⟩) (Value.num 0) :=
  (c7_unknown_function_zero_column ⟨[(ofString "x", [Value.num 1, Value.num 2])]⟩
    (ofString "foo(x)") (by decide)).1

/-- Claim C8: a DATALINES literal line becomes a row exactly when its
whitespace token count equals the declared variable count (so the row count
is the number of matching lines), and a numeric token that fails to parse
becomes a missing cell: the block with lines `1 2`, `3 4 5`, `x 6` under
`input a b;` yields two rows with a missing first cell in the second row. -/
theorem c8_datalines_row_filtering :
    (∀ (vars : List (Str × Bool)) (dlines : List Str),
        (buildRows vars dlines).length =
          (dlines.filter (fun l => (splitWs l).length == vars.length)).length) ∧
    parse_datalines (ofString "data t;\ninput a b;\ndatalines;\n1 2\n3 4 5\nx 6\n;\nrun;") =
      ⟨[(ofString "a", [.num 1, .missing]), (ofString "b", [.num 2, .num 6])]⟩ := by
  constructor
  · intro vars dlines
    induction dlines with
    | nil => rfl
    | cons l ls ih =>
      simp only [buildRows] at ih ⊢
      rw [List.filterMap_cons, List.filter_cons]
      by_cases h : (splitWs l).length = vars.length
      · have hb : ((splitWs l).length == vars.length) = true := beq_iff_eq.mpr h
        rw [if_pos h, hb]
        simp [ih]
      · have hb : ((splitWs l).length == vars.length) = false := by
          simp [h]
        rw [if_neg h, hb]
        simp [ih]
  · decide

/-- Claim C9: a DATA step whose SET source is present in the workspace
rebinds only its output name — the binding of the source table and of every
other table is unchanged afterward. -/
theorem c9_source_binding_preserved :
    ∀ (lib : Library) (stmt : Str) (w : Workspace) (info : DataStepInfo)
      (ds : Str) (rest : List Str),
      containsSub (ofString "datalines") (lower stmt) = false →
      containsSub (ofString "cards") (lower stmt) = false →
      parse_data_step stmt = .ok info →
      info.set_datasets = ds :: rest →
      (wsLookup w (some ds)).isSome = true →
      ∀ k, k ≠ info.output_dataset →
        wsLookup (execDataStep lib stmt w) k = wsLookup w k := by
  intro lib stmt w info ds rest h1 h2 hp hs hw k hk
  obtain ⟨t, ht⟩ := Option.isSome_iff_exists.mp hw
  have hres : resolveDataInput lib info w = .ok (w, t) := by
    unfold resolveDataInput
    simp [hs, ht]
  have hcore : execDataStepCore lib stmt w =
      .ok (wsSet w info.output_dataset (runDataPipeline info t)) := by
    unfold execDataStepCore execDataStepNormal
    simp [h1, h2, hp, hres]
  unfold execDataStep
  rw [hcore]
  exact wsLookup_wsSet_ne w k info.output_dataset _ hk

/-- Claim C9, witness: running `data out; set src; x = 1; run;` against a
workspace holding `src` leaves the binding of `src` untouched. -/
theorem c9_source_binding_preserved_witness :
    wsLookup (execDataStep emptyLibrary (ofString "data out;\nset src;\nx = 1;\nrun;")
        [(some (ofString "src"), ⟨[(ofString "v", [Value.num 7])]⟩)])
      (some (ofString "src")) =
    wsLookup [(some (ofString "src"), ⟨[(ofString "v", [Value.num 7])]⟩)]
      (some (ofString "src")) :=
  c9_source_binding_preserved emptyLibrary (ofString "data out;\nset src;\nx = 1;\nrun;")
    [(some (ofString "src"), ⟨[(ofString "v", [Value.num 7])]⟩)]
    ⟨some (ofString "out"), [ofString "src"], [], [ofString "x = 1;"], [], [], [], []⟩
    (ofString "src") [] (by decide) (by decide) rfl rfl (by decide)
    (some (ofString "src")) (by decide)

/-- Claim C10: a PROC statement with no `DATA=` option takes the most
recently added workspace table (the last dict key) as its input; with an
empty workspace the statement is skipped, leaving the workspace unchanged
(and, by C4's loop step, the session continues with the next statement). -/
theorem c10_default_last_dataset :
    ∀ (reg : ProcRegistry) (lib : Library) (stmt : Str) (w : Workspace) (info : ProcInfo),
      parse_proc stmt = .ok info →
      info.data_option = none →
      (w = [] → execProc reg lib stmt w = w) ∧
      (∀ k, (wsKeys w).getLast? = some k →
        ∃ t, wsLookup w k = some t ∧
          resolveProcInput lib info.data_option w = .ok (w, k, t)) := by
  intro reg lib stmt w info hp hd
  constructor
  · intro hw
    subst hw
    have hre : resolveProcInput lib info.data_option [] = .error () := by
      rw [hd]
      rfl
    unfold execProc
    simp only [hp, hre]
  · intro k hk
    have hmem : k ∈ wsKeys w := List.mem_of_getLast?_eq_some hk
    obtain ⟨t, ht⟩ := Option.isSome_iff_exists.mp (wsLookup_isSome_of_mem_keys w k hmem)
    refine ⟨t, ht, ?_⟩
    rw [hd]
    unfold resolveProcInput
    simp [hk, ht]

/-- Claim C10, witness: `proc print` with no `DATA=` option on an empty
workspace is skipped and changes nothing. -/
theorem c10_default_last_dataset_witness :
    execProc emptyRegistry emptyLibrary (ofString "proc print") [] = [] :=
  (c10_default_last_dataset emptyRegistry emptyLibrary (ofString "proc print") []
    ⟨some (ofString "PRINT"), none, none, []⟩ rfl rfl).1 rfl

/-- Claim C6, witness: on a quote-free line the code's rule and the spec's
rule agree, truncating at the first `*`. -/
theorem c6_amended_first_star_rule_witness :
    stripLineComment (ofString "y = a*b") = specStripLineComment (ofString "y = a*b") :=
  c6_amended_first_star_rule (ofString "y = a*b") (by decide) (by decide)

end OpenSAS
